import Mathlib

/-!
Verification of the step-free-api core (`src/api/controllers/chat.ts`) against its
natural-language specification.  The TypeScript source is shallowly embedded:
byte buffers become `List Nat`, the stateful stream decoder becomes an explicit
state-passing step function, provider events become an inductive tagged union,
and the effectful upload pipeline becomes a function from an environment of
upstream responses to an outcome plus an ordered trace of performed steps.
-/

namespace StepFreeApi

/-! ## Frame decoder (`receiveStream` / `createTransStream` chunk handler)

Embedding of the `stream.on("data", ...)` handler shared verbatim by
`receiveStream` (chat.ts lines 514-531) and `createTransStream` (lines 660-677):

```
let chunk = Buffer.from([]);
let temp = Buffer.from([]);
stream.on("data", (buffer) => {
  chunk = Buffer.concat([temp, chunk, buffer]);
  if (chunk.length < 5) return;
  const chunkSize = chunk.readUint32BE(1);
  temp = chunk.subarray(chunkSize + 5);
  chunk = chunk.subarray(0, chunkSize + 5);
  if (chunk.length < chunkSize + 5) return;
  parser(chunk.subarray(5));
  chunk = Buffer.from([]);
});
```

Bytes are `Nat` (each < 256 for well-formed buffers); `Buffer.concat`, `subarray`
and `readUint32BE` become list append, `take`/`drop` and an explicit big-endian
read.  Note that in the `chunk.length < 5` early return the mutable `temp` is
*not* reassigned, exactly as in the source. -/

/-- `buffer.readUint32BE(off)`: big-endian 32-bit read (missing bytes read 0,
which never happens on the in-range calls the decoder makes). -/
def readUint32BE (l : List Nat) (off : Nat) : Nat :=
  l.getD off 0 * 2 ^ 24 + l.getD (off + 1) 0 * 2 ^ 16 +
    l.getD (off + 2) 0 * 2 ^ 8 + l.getD (off + 3) 0

/-- The decoder's two mutable buffers (`chunk`, `temp`). -/
structure DecState where
  chunk : List Nat
  temp : List Nat
deriving DecidableEq, Repr

/-- One `data` event of the decoder: returns the new state and the payload
handed to `parser`, if any.  Mirrors the source line by line. -/
def decodeStep (s : DecState) (buffer : List Nat) : DecState × Option (List Nat) :=
  let c := s.temp ++ s.chunk ++ buffer
  if c.length < 5 then ({ chunk := c, temp := s.temp }, none)
  else
    let size := readUint32BE c 1
    let rest := c.drop (size + 5)
    let frame := c.take (size + 5)
    if frame.length < size + 5 then ({ chunk := frame, temp := rest }, none)
    else ({ chunk := [], temp := rest }, some (frame.drop 5))

/-- Feed a sequence of chunks through the decoder from its initial state and
collect the payloads handed to the parser, in order. -/
def decodeChunks (chunks : List (List Nat)) : List (List Nat) :=
  (chunks.foldl
    (fun acc buf =>
      let r := decodeStep acc.1 buf
      (r.1, acc.2 ++ r.2.toList))
    (⟨[], []⟩, [])).2

/-- Big-endian 4-byte encoding of a length (the shape `wrapData` writes and the
provider uses for its own frames). -/
def be32 (n : Nat) : List Nat :=
  [n / 2 ^ 24 % 256, n / 2 ^ 16 % 256, n / 2 ^ 8 % 256, n % 256]

/-- A well-formed wire frame: 1 flag byte, 4-byte big-endian length, payload. -/
def encodeFrame (flag : Nat) (payload : List Nat) : List Nat :=
  flag :: be32 payload.length ++ payload

theorem be32_readback (n : Nat) (h : n < 2 ^ 32) :
    n / 2 ^ 24 % 256 * 2 ^ 24 + n / 2 ^ 16 % 256 * 2 ^ 16 +
      n / 2 ^ 8 % 256 * 2 ^ 8 + n % 256 = n := by
  omega

theorem encodeFrame_eq_cons (flag : Nat) (p : List Nat) :
    encodeFrame flag p =
      flag :: p.length / 2 ^ 24 % 256 :: p.length / 2 ^ 16 % 256 ::
        p.length / 2 ^ 8 % 256 :: p.length % 256 :: p := by
  simp [encodeFrame, be32]

theorem readUint32BE_encodeFrame (flag : Nat) (p : List Nat) (h : p.length < 2 ^ 32) :
    readUint32BE (encodeFrame flag p) 1 = p.length := by
  rw [encodeFrame_eq_cons]
  simp only [readUint32BE, List.getD_cons_succ, List.getD_cons_zero]
  exact be32_readback p.length h

theorem encodeFrame_length (flag : Nat) (p : List Nat) :
    (encodeFrame flag p).length = p.length + 5 := by
  simp [encodeFrame, be32]

theorem decodeStep_clean (flag : Nat) (p : List Nat) (h : p.length < 2 ^ 32) :
    decodeStep ⟨[], []⟩ (encodeFrame flag p) = (⟨[], []⟩, some p) := by
  have hlen : (encodeFrame flag p).length = p.length + 5 := encodeFrame_length flag p
  have hread : readUint32BE (encodeFrame flag p) 1 = p.length :=
    readUint32BE_encodeFrame flag p h
  unfold decodeStep
  simp only [List.nil_append, hread, hlen]
  have h5 : ¬ (p.length + 5 < 5) := by omega
  rw [if_neg h5]
  have hdrop : (encodeFrame flag p).drop (p.length + 5) = [] := by
    apply List.drop_eq_nil_of_le
    omega
  have htake : (encodeFrame flag p).take (p.length + 5) = encodeFrame flag p := by
    apply List.take_of_length_le
    omega
  rw [hdrop, htake, hlen]
  have h5' : ¬ (p.length + 5 < p.length + 5) := by omega
  rw [if_neg h5']
  have hdrop5 : (encodeFrame flag p).drop 5 = p := by
    rw [encodeFrame_eq_cons]
    rfl
  rw [hdrop5]

theorem decodeChunks_frames_aux (frames : List (Nat × List Nat))
    (h : ∀ f ∈ frames, f.2.length < 2 ^ 32) (acc : List (List Nat)) :
    (frames.map fun f => encodeFrame f.1 f.2).foldl
      (fun acc buf =>
        let r := decodeStep acc.1 buf
        (r.1, acc.2 ++ r.2.toList))
      (⟨[], []⟩, acc) = (⟨[], []⟩, acc ++ frames.map (·.2)) := by
  induction frames generalizing acc with
  | nil => simp
  | cons f rest ih =>
    have hf : f.2.length < 2 ^ 32 := h f (by simp)
    have hrest : ∀ g ∈ rest, g.2.length < 2 ^ 32 := fun g hg => h g (by simp [hg])
    simp only [List.map_cons, List.foldl_cons, decodeStep_clean f.1 f.2 hf]
    have h2 := ih hrest (acc ++ [f.2])
    simpa using h2

/-- C1 (amended): the decoder parses at most one frame per received chunk and
carries the remainder to the next `data` event; when each delivered chunk holds
exactly one complete well-formed frame, the decoder emits exactly the frames'
payloads, in order. -/
theorem C1_frame_per_chunk_reassembly (frames : List (Nat × List Nat))
    (h : ∀ f ∈ frames, f.2.length < 2 ^ 32) :
    decodeChunks (frames.map fun f => encodeFrame f.1 f.2) = frames.map (·.2) := by
  unfold decodeChunks
  rw [decodeChunks_frames_aux frames h []]
  simp

/-- C1 witness: three concrete frames, one per chunk, decode to their payloads. -/
theorem C1_frame_per_chunk_reassembly_witness :
    decodeChunks ([((0 : Nat), [65, 66]), (0, []), (0, [1, 2, 3])].map
        fun f => encodeFrame f.1 f.2) = [[65, 66], [], [1, 2, 3]] :=
  C1_frame_per_chunk_reassembly [(0, [65, 66]), (0, []), (0, [1, 2, 3])]
    (by decide)

/-- C1 counterexample: packing two complete frames into one chunk does not
yield the same payload sequence as delivering them in separate chunks — the
decoder emits only the first frame of a packed chunk in that `data` event, so
splitting the serialized bytes at arbitrary boundaries is not equivalent to
feeding them whole. -/
theorem C1_packed_chunk_counterexample :
    decodeChunks [encodeFrame 0 [65] ++ encodeFrame 0 [66]] ≠
      decodeChunks [encodeFrame 0 [65], encodeFrame 0 [66]] := by
  decide

/-! ## Provider events and the buffered transcoder (`receiveStream`, lines 468-535)

A decoded frame payload is parsed as JSON and dispatched by the if/else chain of
`receiveStream`'s `parser`.  The tagged union below has one constructor per
branch of that chain (the branch guards' JS truthiness checks are kept: an
`error.code` of `""` or an empty `textEvent.text` falls through and does
nothing, a `pipelineEvent` without `eventSearch.results` does nothing, and a
payload matching none of the shapes is `unknownEv`). -/

structure SearchResult where
  title : String
  url : String
deriving DecidableEq, Repr

inductive Event where
  /-- `{error:{code,message}}` with a truthy `code`; `errorEv "" m` models a
  present but falsy code (the branch is skipped). -/
  | errorEv (code : String) (message : String)
  /-- `{pipelineEvent:{eventSearch:{results:[...]}}}` with the `results` field
  present (possibly the empty array, which is truthy in JS). -/
  | searchEv (results : List SearchResult)
  /-- A `pipelineEvent` without `eventSearch.results`. -/
  | pipelineOtherEv
  /-- `{textEvent:{text}}`; `textEv ""` models a present but falsy text. -/
  | textEv (text : String)
  /-- `{doneEvent:{}}`. -/
  | doneEv
  /-- Valid JSON matching none of the dispatched shapes. -/
  | unknownEv
deriving DecidableEq, Repr

/-- `refContent.replace(/\n$/, "")`: remove one trailing newline if present. -/
def trimTrailingNewline (s : String) : String :=
  match s.data.getLast? with
  | some c => if c = '\n' then String.mk s.data.dropLast else s
  | none => s

/-- Mutable state of `receiveStream`'s parser: the accumulated answer
(`data.choices[0].message.content`) and the search side buffer (`refContent`). -/
structure BufferedState where
  content : String
  refContent : String
deriving DecidableEq, Repr

/-- The `"{title}({url})\n"` accumulation over one search event's results
(chat.ts lines 499-504). -/
def searchRefContent (results : List SearchResult) : String :=
  results.foldl (fun str v => str ++ v.title ++ "(" ++ v.url ++ ")" ++ "\n") ""

/-- One event through `receiveStream`'s `parser` (chat.ts lines 486-513). -/
def bufferedStep (s : BufferedState) (e : Event) : BufferedState :=
  match e with
  | .errorEv code msg =>
      if code = "" then s
      else { s with content :=
        s.content ++ "服务暂时不可用，第三方响应错误：[" ++ code ++ "] " ++ msg }
  | .searchEv results => { s with refContent := searchRefContent results }
  | .pipelineOtherEv => s
  | .textEv t => if t = "" then s else { s with content := s.content ++ t }
  | .doneEv =>
      { s with content := s.content ++
          (if s.refContent = "" then ""
           else "\n\n搜索结果来自：\n" ++ trimTrailingNewline s.refContent) }
  | .unknownEv => s

structure Usage where
  prompt_tokens : Nat
  completion_tokens : Nat
  total_tokens : Nat
deriving DecidableEq, Repr

structure RespMessage where
  role : String
  content : String
deriving DecidableEq, Repr

structure Choice where
  index : Nat
  message : RespMessage
  finish_reason : String
deriving DecidableEq, Repr

structure Completion where
  id : String
  model : String
  object : String
  choices : List Choice
  usage : Usage
  created : Nat
deriving DecidableEq, Repr

/-- The completion object `receiveStream` resolves with on stream close: the
fields initialized at lines 471-484, with only `choices[0].message.content`
mutated by the parser. -/
def receiveStreamResult (model convId : String) (created : Nat)
    (events : List Event) : Completion :=
  let s := events.foldl bufferedStep ⟨"", ""⟩
  { id := convId
    model := model
    object := "chat.completion"
    choices := [⟨0, ⟨"assistant", s.content⟩, "stop"⟩]
    usage := ⟨1, 1, 2⟩
    created := created }

/-- C9: every buffered completion resolved by `receiveStream` — for every
provider event sequence, including ones with no `DoneEvent` — has object
`"chat.completion"`, exactly one choice with index 0, an assistant-role
message, finish reason `"stop"`, and the fixed usage `{1, 1, 2}`; none of
these fields depends on the received events. -/
theorem C9_buffered_completion_shape (model convId : String) (created : Nat)
    (events : List Event) :
    (receiveStreamResult model convId created events).object = "chat.completion" ∧
    (receiveStreamResult model convId created events).usage = ⟨1, 1, 2⟩ ∧
    (receiveStreamResult model convId created events).choices =
      [⟨0, ⟨"assistant", (events.foldl bufferedStep ⟨"", ""⟩).content⟩, "stop"⟩] ∧
    ((receiveStreamResult model convId created events).choices.map (·.finish_reason) =
      (receiveStreamResult model convId created ([] : List Event)).choices.map
        (·.finish_reason)) ∧
    ((receiveStreamResult model convId created events).usage =
      (receiveStreamResult model convId created ([] : List Event)).usage) := by
  refine ⟨rfl, rfl, rfl, rfl, rfl⟩

/-! ## Streaming transcoder (`createTransStream`, lines 547-687)

The SSE chunks written to the `PassThrough` are modelled structurally: each
`transStream.write("data: " + JSON.stringify({...}) + "\n\n")` becomes one
`OutChunk` value recording the delta content, the finish reason and whether the
fixed usage block is attached; `transStream.end("data: [DONE]\n\n")` becomes the
`done` sentinel and flips the modelled `closed` flag (every write in the source
is guarded by `!transStream.closed`).  The upstream `error` and `close`
handlers (lines 678-685) both just end the stream with the sentinel. -/

inductive OutChunk where
  /-- The opening chunk `{delta:{role:"assistant",content:""},finish_reason:null}`
  written at lines 557-572. -/
  | roleChunk
  /-- A `chat.completion.chunk` with the given `delta.content` (none = empty
  delta object), finish reason, and usage block presence. -/
  | chunk (deltaContent : Option String) (finish : Option String) (withUsage : Bool)
  /-- The sentinel line `data: [DONE]\n\n` passed to `transStream.end`. -/
  | done
deriving DecidableEq, Repr

structure TransState where
  output : List OutChunk
  closed : Bool
deriving DecidableEq, Repr

/-- `!transStream.closed && transStream.write(data)`. -/
def writeChunk (s : TransState) (c : OutChunk) : TransState :=
  if s.closed then s else { s with output := s.output ++ [c] }

/-- `!transStream.closed && transStream.end("data: [DONE]\n\n")`. -/
def endStream (s : TransState) : TransState :=
  if s.closed then s
  else { output := s.output ++ [OutChunk.done], closed := true }

/-- The `"检索 {title}({url}) ...\n"` accumulation over one search event's
results (chat.ts lines 602-607). -/
def searchingLines (results : List SearchResult) : String :=
  results.foldl (fun str v => str ++ "检索 " ++ v.title ++ "(" ++ v.url ++ ")" ++ " ...\n") ""

/-- One event through `createTransStream`'s `parser` (chat.ts lines 573-659).
The `endCallback` invocation carries no client-visible output and is omitted. -/
def transStep (s : TransState) (e : Event) : TransState :=
  match e with
  | .errorEv code msg =>
      if code = "" then s
      else
        endStream (writeChunk s (.chunk
          (some ("服务暂时不可用，第三方响应错误：[" ++ code ++ "] " ++ msg))
          (some "stop") true))
  | .searchEv results =>
      writeChunk s (.chunk (some (searchingLines results ++ "\n")) none false)
  | .pipelineOtherEv => s
  | .textEv t =>
      if t = "" then s else writeChunk s (.chunk (some t) none false)
  | .doneEv => endStream (writeChunk s (.chunk none (some "stop") true))
  | .unknownEv => s

/-- How the upstream byte stream terminates after its data events. -/
inductive StreamEnd where
  /-- The `close` event: normal end of the provider response. -/
  | closed
  /-- The `error` event: a transport-level error on the upstream stream. -/
  | errored
deriving DecidableEq, Repr

/-- The full sequence of SSE chunks `createTransStream` writes for a given
decoded event sequence and stream termination: the opening role chunk, then the
parser on each event, then the `error`/`close` handler (both of which end the
stream with the sentinel, lines 678-685). -/
def transStreamOutput (events : List Event) (e : StreamEnd) : List OutChunk :=
  let s0 := writeChunk ⟨[], false⟩ .roleChunk
  let s1 := events.foldl transStep s0
  (match e with
   | .closed => endStream s1
   | .errored => endStream s1).output

/-- C4: buffered mode stores each search event's results as `"{title}({url})\n"`
lines in the side buffer without touching the emitted answer, and `DoneEvent`
appends the buffer (one trailing newline trimmed) as the trailing
`搜索结果来自` block; on the scenario
`[SearchEvent([{title:"A",url:"http://a"}]), TextEvent("ans"), DoneEvent]` the
buffered content is exactly `"ans\n\n搜索结果来自：\nA(http://a)"`, and the
streaming transcoder emits the visible `"检索 A(http://a) ..."` chunk before
the `"ans"` delta chunk. -/
theorem C4_search_event_handling :
    (∀ (s : BufferedState) (results : List SearchResult),
      (bufferedStep s (.searchEv results)).content = s.content ∧
      (bufferedStep s (.searchEv results)).refContent = searchRefContent results) ∧
    (∀ (s : BufferedState), s.refContent ≠ "" →
      (bufferedStep s .doneEv).content =
        s.content ++ "\n\n搜索结果来自：\n" ++ trimTrailingNewline s.refContent) ∧
    (receiveStreamResult "step" "c" 0
        [.searchEv [⟨"A", "http://a"⟩], .textEv "ans", .doneEv]).choices =
      [⟨0, ⟨"assistant", "ans\n\n搜索结果来自：\nA(http://a)"⟩, "stop"⟩] ∧
    transStreamOutput [.searchEv [⟨"A", "http://a"⟩], .textEv "ans", .doneEv] .closed =
      [.roleChunk,
       .chunk (some "检索 A(http://a) ...\n\n") none false,
       .chunk (some "ans") none false,
       .chunk none (some "stop") true,
       .done] := by
  refine ⟨fun s results => ⟨rfl, rfl⟩, fun s h => ?_, by decide, by decide⟩
  simp only [bufferedStep, if_neg h]
  simp [String.append_assoc]

/-- C4 witness: the `DoneEvent` conjunct applied at a concrete nonempty side
buffer. -/
theorem C4_search_event_handling_witness :
    (bufferedStep ⟨"x", "A(http://a)\n"⟩ .doneEv).content =
      "x" ++ "\n\n搜索结果来自：\n" ++ trimTrailingNewline "A(http://a)\n" :=
  C4_search_event_handling.2.1 ⟨"x", "A(http://a)\n"⟩ (by decide)

/-! ## Mid-stream failure behaviour (C6) -/

/-- An SSE chunk carrying the formatted service-unavailable notice with finish
reason `"stop"` (the shape the claim requires for mid-stream failures). -/
def isServiceNoticeChunk (c : OutChunk) : Bool :=
  match c with
  | .chunk (some t) (some f) _ =>
      f == "stop" && (t.data.take 7 == "服务暂时不可用".data)
  | _ => false

/-- Invariant of the transcoder stream: while open, no sentinel has been
written; once closed, the output ends with exactly one sentinel. -/
def SseInv (s : TransState) : Prop :=
  (s.closed = false ∧ OutChunk.done ∉ s.output) ∨
  (s.closed = true ∧ ∃ pre, s.output = pre ++ [OutChunk.done] ∧ OutChunk.done ∉ pre)

theorem writeChunk_open (out : List OutChunk) (c : OutChunk) :
    writeChunk ⟨out, false⟩ c = ⟨out ++ [c], false⟩ := rfl

theorem writeChunk_closed (out : List OutChunk) (c : OutChunk) :
    writeChunk ⟨out, true⟩ c = ⟨out, true⟩ := rfl

theorem endStream_open (out : List OutChunk) :
    endStream ⟨out, false⟩ = ⟨out ++ [OutChunk.done], true⟩ := rfl

theorem endStream_closed (out : List OutChunk) :
    endStream ⟨out, true⟩ = ⟨out, true⟩ := rfl

theorem writeChunk_inv (s : TransState) (c : OutChunk) (hc : c ≠ OutChunk.done)
    (h : SseInv s) : SseInv (writeChunk s c) := by
  obtain ⟨out, b⟩ := s
  cases b with
  | true =>
      rw [writeChunk_closed]
      exact h
  | false =>
      rw [writeChunk_open]
      rcases h with ⟨h1, h2⟩ | ⟨h1, _⟩
      · left
        refine ⟨rfl, ?_⟩
        intro hmem
        rcases List.mem_append.mp hmem with hm | hm
        · exact h2 hm
        · exact hc (List.mem_singleton.mp hm).symm
      · simp at h1

theorem endStream_inv (s : TransState) (h : SseInv s) :
    (endStream s).closed = true ∧
    ∃ pre, (endStream s).output = pre ++ [OutChunk.done] ∧ OutChunk.done ∉ pre := by
  obtain ⟨out, b⟩ := s
  cases b with
  | false =>
      rw [endStream_open]
      rcases h with ⟨h1, h2⟩ | ⟨h1, _⟩
      · exact ⟨rfl, out, rfl, h2⟩
      · simp at h1
  | true =>
      rw [endStream_closed]
      rcases h with ⟨h1, h2⟩ | ⟨h1, pre, h2, h3⟩
      · simp at h1
      · exact ⟨rfl, pre, h2, h3⟩

theorem endStream_inv' (s : TransState) (h : SseInv s) : SseInv (endStream s) :=
  Or.inr ⟨(endStream_inv s h).1, (endStream_inv s h).2⟩

theorem transStep_inv (s : TransState) (e : Event) (h : SseInv s) :
    SseInv (transStep s e) := by
  cases e with
  | errorEv code msg =>
      simp only [transStep]
      split
      · exact h
      · exact endStream_inv' _ (writeChunk_inv s _ (by simp) h)
  | searchEv results => exact writeChunk_inv s _ (by simp) h
  | pipelineOtherEv => exact h
  | textEv t =>
      simp only [transStep]
      split
      · exact h
      · exact writeChunk_inv s _ (by simp) h
  | doneEv => exact endStream_inv' _ (writeChunk_inv s _ (by simp) h)
  | unknownEv => exact h

theorem foldl_transStep_inv (events : List Event) (s : TransState) (h : SseInv s) :
    SseInv (events.foldl transStep s) := by
  induction events generalizing s with
  | nil => exact h
  | cons e rest ih => exact ih (transStep s e) (transStep_inv s e h)

/-- C6 (amended): a provider `ErrorEvent` arriving while the client stream is
open writes the in-band error chunk (service-unavailable notice, finish reason
`"stop"`, usage block) immediately followed by the sentinel; a transport-level
error on the upstream byte stream terminates the client stream exactly like a
normal close — with the sentinel alone and no additional error chunk; in every
case the client-visible output ends with exactly one sentinel and no
protocol-level abort or raised error reaches the consumer. -/
theorem C6_midstream_failure (events : List Event) (e : StreamEnd)
    (s : TransState) (code msg : String) :
    (s.closed = false → code ≠ "" →
      transStep s (.errorEv code msg) =
        ⟨s.output ++
          [.chunk (some ("服务暂时不可用，第三方响应错误：[" ++ code ++ "] " ++ msg))
            (some "stop") true, .done], true⟩) ∧
    (transStreamOutput events .errored = transStreamOutput events .closed) ∧
    (∃ pre, transStreamOutput events e = pre ++ [OutChunk.done] ∧
      OutChunk.done ∉ pre) := by
  refine ⟨fun hopen hcode => ?_, rfl, ?_⟩
  · obtain ⟨out, b⟩ := s
    have hb : b = false := hopen
    subst hb
    simp only [transStep, if_neg hcode, writeChunk_open, endStream_open]
    simp
  · have h0 : SseInv (writeChunk ⟨[], false⟩ .roleChunk) := by
      rw [writeChunk_open]
      left
      exact ⟨rfl, by simp⟩
    have h1 := foldl_transStep_inv events _ h0
    have h2 := endStream_inv _ h1
    cases e with
    | closed => exact h2.2
    | errored => exact h2.2

/-- C6 witness: the `ErrorEvent` conjunct applied in a concrete open state. -/
theorem C6_midstream_failure_witness :
    transStep ⟨[OutChunk.roleChunk], false⟩ (.errorEv "x" "m") =
      ⟨[OutChunk.roleChunk] ++
        [.chunk (some ("服务暂时不可用，第三方响应错误：[" ++ "x" ++ "] " ++ "m"))
          (some "stop") true, .done], true⟩ :=
  (C6_midstream_failure [] .closed ⟨[OutChunk.roleChunk], false⟩ "x" "m").1 rfl
    (by decide)

/-- C6 counterexample: a transport-level error after a text chunk was already
emitted ends the stream with the sentinel alone — no chunk in the output
carries the service-unavailable notice, contradicting the claim that an
in-band error chunk is written in this case too. -/
theorem C6_transport_error_counterexample :
    transStreamOutput [.textEv "hi"] .errored =
      [.roleChunk, .chunk (some "hi") none false, .done] ∧
    ∀ c ∈ transStreamOutput [.textEv "hi"] .errored,
      isServiceNoticeChunk c = false := by
  decide

/-! ## Fatal decode errors and the retry policy (C7)

`receiveStream`'s parser starts with
`const result = _.attempt(() => JSON.parse(buffer.toString()));` and throws
`new Error("Stream response invalid: ...")` when the payload is not valid JSON
(lines 487-491); the throw aborts the processing of that stream, so frames
after the malformed one are never interpreted.  `createCompletion`'s catch
handler (lines 251-267) retries only while `retryCount < MAX_RETRY_COUNT`,
and `MAX_RETRY_COUNT` is the constant `0` (line 17). -/

/-- Outcome of `JSON.parse` + event classification for one frame payload. -/
abbrev ParseResult := Except String Event

/-- Runs `receiveStream`'s parser over successive frame payloads: a malformed
payload raises the fatal `Stream response invalid` error and the remaining
payloads are never processed. -/
def runParser (s : BufferedState) : List ParseResult → Except String BufferedState
  | [] => .ok s
  | .error e :: _ => .error ("Stream response invalid: " ++ e)
  | .ok ev :: rest => runParser (bufferedStep s ev) rest

def MAX_RETRY_COUNT : Nat := 0

/-- Whether `createCompletion` / `createCompletionStream` retries the pipeline
after an error raised at attempt number `retryCount`. -/
def willRetry (retryCount : Nat) : Bool :=
  decide (retryCount < MAX_RETRY_COUNT)

theorem runParser_ok_append (s : BufferedState) (ok : List Event)
    (rest : List ParseResult) :
    runParser s (ok.map Except.ok ++ rest) =
      runParser (ok.foldl bufferedStep s) rest := by
  induction ok generalizing s with
  | nil => rfl
  | cons ev evs ih =>
      simp only [List.map_cons, List.cons_append, runParser, List.foldl_cons]
      exact ih (bufferedStep s ev)

/-- C7: a frame payload that is not valid JSON raises the fatal
`Stream response invalid` decode error for that stream — the result is the
error no matter what frames follow (they are never processed, not skipped) —
and the orchestrator never retries (its retry guard `retryCount <
MAX_RETRY_COUNT` is false for every attempt, the bound being 0). -/
theorem C7_decode_error_fatal (s : BufferedState) (ok : List Event) (e : String)
    (post post2 : List ParseResult) :
    runParser s (ok.map Except.ok ++ .error e :: post) =
      .error ("Stream response invalid: " ++ e) ∧
    runParser s (ok.map Except.ok ++ .error e :: post) =
      runParser s (ok.map Except.ok ++ .error e :: post2) ∧
    (∀ n, willRetry n = false) := by
  refine ⟨?_, ?_, ?_⟩
  · rw [runParser_ok_append]
    rfl
  · rw [runParser_ok_append, runParser_ok_append]
    rfl
  · intro n
    simp [willRetry, MAX_RETRY_COUNT]

/-! ## Single-flight token refresh (C2)

Embedding of `requestToken` (chat.ts lines 54-108).  JavaScript is
single-threaded and `requestToken`'s prologue runs atomically up to its first
`await`: a caller that finds `accessTokenRequestQueueMap[refreshToken]` present
pushes its `resolve` into the queue and suspends; otherwise it installs an
empty queue and issues the one upstream `RegisterDevice` call.  When that call
settles, both its `.then` and `.catch` handlers resolve every queued caller
with the very same value (the fresh lease object, or the `Error` object on
failure) and delete the queue.  The model fixes one refresh key; callers are
numbered; `calls` counts upstream requests issued. -/

/-- What the single upstream refresh settles with: the fresh lease fields on
success, or the error value on failure (queued callers are resolved with the
error object itself — see `resolve(err)` at line 100). -/
inductive RefreshOutcome where
  | ok (deviceId accessToken refreshToken : String) (refreshTime : Nat)
  | err (message : String)
deriving DecidableEq, Repr

/-- Per-key state of `accessTokenRequestQueueMap`: `queue = none` means no
refresh is in flight; `some q` holds the queued waiters; `owner` is the caller
whose prologue installed the queue; `calls` counts upstream requests. -/
structure FlightState where
  queue : Option (List Nat)
  calls : Nat
  owner : Option Nat
deriving DecidableEq, Repr

/-- The atomic prologue of `requestToken` for caller `i` (lines 55-60). -/
def flightArrive (s : FlightState) (i : Nat) : FlightState :=
  match s.queue with
  | some q => { s with queue := some (q ++ [i]) }
  | none => { queue := some [], calls := s.calls + 1, owner := some i }

/-- Settlement of the single upstream call (lines 87-105): every queued caller
and the owner receive the same outcome; the queue entry is deleted. -/
def flightSettle (s : FlightState) (r : RefreshOutcome) :
    List (Nat × RefreshOutcome) × FlightState :=
  match s.queue, s.owner with
  | some q, some o =>
      ((o :: q).map (fun i => (i, r)), { queue := none, calls := s.calls, owner := none })
  | _, _ => ([], { s with queue := none, owner := none })

/-- N callers arrive (in some order) while no refresh is in flight and no
cached lease exists; then the one upstream call settles with `r`. -/
def runSingleFlight (callers : List Nat) (r : RefreshOutcome) :
    List (Nat × RefreshOutcome) × FlightState :=
  flightSettle (callers.foldl flightArrive ⟨none, 0, none⟩) r

theorem flightArrive_fold_queued (cs : List Nat) (q : List Nat) (k : Nat) (o : Nat) :
    cs.foldl flightArrive ⟨some q, k, some o⟩ = ⟨some (q ++ cs), k, some o⟩ := by
  induction cs generalizing q with
  | nil => simp
  | cons c rest ih =>
      simp only [List.foldl_cons]
      rw [show flightArrive ⟨some q, k, some o⟩ c = ⟨some (q ++ [c]), k, some o⟩ from rfl]
      rw [ih (q ++ [c])]
      simp

theorem flightArrive_fold_first (c : Nat) (cs : List Nat) :
    (c :: cs).foldl flightArrive ⟨none, 0, none⟩ = ⟨some cs, 1, some c⟩ := by
  simp only [List.foldl_cons]
  rw [show flightArrive ⟨none, 0, none⟩ c = ⟨some [], 1, some c⟩ from rfl]
  rw [flightArrive_fold_queued cs [] 1 c]
  simp

/-- C2: when N ≥ 1 callers concurrently request a refresh for the same key
while none is cached or in flight, exactly one upstream request is issued
(`calls = 1`), every caller receives the result of that single call — the same
lease on success or the same failure value — and at every instant of the
arrival sequence at most one refresh is in flight. -/
theorem C2_single_flight_refresh (c : Nat) (cs : List Nat) (r : RefreshOutcome) :
    runSingleFlight (c :: cs) r =
      ((c :: cs).map (fun i => (i, r)), ⟨none, 1, none⟩) ∧
    (∀ i ∈ c :: cs, (i, r) ∈ (runSingleFlight (c :: cs) r).1) ∧
    (∀ k, (((c :: cs).take k).foldl flightArrive ⟨none, 0, none⟩).calls ≤ 1) := by
  have hfold := flightArrive_fold_first c cs
  have hrun : runSingleFlight (c :: cs) r =
      ((c :: cs).map (fun i => (i, r)), ⟨none, 1, none⟩) := by
    unfold runSingleFlight
    rw [hfold]
    rfl
  refine ⟨hrun, ?_, ?_⟩
  · intro i hi
    rw [hrun]
    exact List.mem_map_of_mem _ hi
  · intro k
    cases k with
    | zero => simp
    | succ j =>
        simp only [List.take_succ_cons]
        rw [flightArrive_fold_first c (cs.take j)]

/-- C2 witness: with three concrete callers and a failing upstream call, a
queued caller receives that same failure value. -/
theorem C2_single_flight_refresh_witness :
    ((5 : Nat), RefreshOutcome.err "boom") ∈
      (runSingleFlight [3, 4, 5] (RefreshOutcome.err "boom")).1 :=
  (C2_single_flight_refresh 3 [4, 5] (RefreshOutcome.err "boom")).2.1 5 (by decide)

/-! ## Lease eviction on authentication failure (C3)

`checkResult` (chat.ts lines 453-459) and the cache probe at the head of
`acquireToken` (lines 117-126).  `accessTokenMap` is modelled as an
association list. -/

structure Lease where
  deviceId : String
  accessToken : String
  refreshToken : String
  refreshTime : Nat
deriving DecidableEq, Repr

abbrev TokenMap := List (String × Lease)

/-- `accessTokenMap.get(key)`. -/
def mapGet (m : TokenMap) (k : String) : Option Lease :=
  (m.find? (fun p => p.1 == k)).map (·.2)

/-- `accessTokenMap.delete(key)`. -/
def mapDelete (m : TokenMap) (k : String) : TokenMap :=
  m.filter (fun p => p.1 != k)

/-- A provider response body as `checkResult` inspects it: an optional string
`code` field, a `message`, and the payload value returned when no string code
is present. -/
structure ProviderBody (α : Type) where
  code : Option String
  message : String
  value : α

inductive CheckOutcome (α : Type) where
  /-- `if (!result.data) return null`. -/
  | nullData
  /-- `if (!_.isString(code)) return result.data`. -/
  | ok (value : α)
  /-- `throw new APIException(EX.API_REQUEST_FAILED, ...)`. -/
  | apiError (message : String)

/-- `checkResult(result, refreshToken)` (lines 453-459), returning the outcome
and the possibly mutated `accessTokenMap`. -/
def checkResult {α : Type} (body : Option (ProviderBody α)) (refreshToken : String)
    (m : TokenMap) : CheckOutcome α × TokenMap :=
  match body with
  | none => (.nullData, m)
  | some b =>
      match b.code with
      | none => (.ok b.value, m)
      | some c =>
          (.apiError ("[请求step失败]: " ++ b.message),
           if c = "unauthenticated" then mapDelete m refreshToken else m)

inductive AcquireAction where
  | useCached (l : Lease)
  | refresh
deriving DecidableEq, Repr

/-- The first decision `acquireToken` takes (lines 118-126): refresh when no
lease is cached, or when the cached lease is past its `refreshTime`. -/
def acquireFirstAction (m : TokenMap) (k : String) (now : Nat) : AcquireAction :=
  match mapGet m k with
  | none => .refresh
  | some l => if l.refreshTime < now then .refresh else .useCached l

theorem mapGet_mapDelete (m : TokenMap) (k : String) :
    mapGet (mapDelete m k) k = none := by
  induction m with
  | nil => rfl
  | cons p rest ih =>
      by_cases h : p.1 == k
      · simp only [mapDelete, List.filter_cons] at ih ⊢
        simp only [bne, h, Bool.not_true, if_false, Bool.false_eq_true]
        exact ih
      · simp only [mapDelete, List.filter_cons] at ih ⊢
        simp only [bne, h, Bool.not_false, if_true]
        simp only [mapGet, List.find?_cons, h]
        exact ih

/-- C3: a provider body carrying the code `"unauthenticated"` makes
`checkResult` evict the cached lease for that refresh key immediately and
raise the API error, so the next `acquireToken` for that key finds no cached
lease and performs a fresh upstream exchange. -/
theorem C3_eviction_on_unauthenticated {α : Type} (m : TokenMap) (k : String)
    (msg : String) (v : α) (now : Nat) :
    (checkResult (some ⟨some "unauthenticated", msg, v⟩) k m).1 =
      CheckOutcome.apiError ("[请求step失败]: " ++ msg) ∧
    (checkResult (some ⟨some "unauthenticated", msg, v⟩) k m).2 = mapDelete m k ∧
    mapGet (checkResult (some ⟨some "unauthenticated", msg, v⟩) k m).2 k = none ∧
    acquireFirstAction (checkResult (some ⟨some "unauthenticated", msg, v⟩) k m).2
      k now = .refresh := by
  have h2 : (checkResult (some ⟨some "unauthenticated", msg, v⟩) k m).2 =
      mapDelete m k := by
    simp [checkResult]
  refine ⟨rfl, h2, ?_, ?_⟩
  · rw [h2]
    exact mapGet_mapDelete m k
  · rw [h2]
    unfold acquireFirstAction
    rw [mapGet_mapDelete m k]

/-! ## Attachment upload pipeline (C8)

`checkFileUrl` (chat.ts lines 720-744) and `uploadFile` (lines 752-845).  The
effectful pipeline is embedded as a function of an environment carrying the
upstream responses (probe status, declared content length, successive status
polls with the `util.unixTimestamp()` value observed right after each poll
returns); the result is paired with the ordered trace of externally visible
steps.  `checkResult` failures on the transfer/poll HTTP exchanges are outside
the claim and modelled as succeeding with the environment's values. -/

def FILE_MAX_SIZE : Nat := 100 * 1024 * 1024

/-- The terminal-failure statuses at line 829. -/
def failStatuses : List Nat := [12, 22, 59, 404]

/-- One settled status poll: the destructured `fileStatus` and
`needFurtherCall`, plus the clock value when the poll returned. -/
structure PollResult where
  fileStatus : Nat
  needFurtherCall : Bool
  time : Nat
deriving DecidableEq, Repr

inductive UploadStep where
  /-- The metadata-only `axios.head` probe (line 722). -/
  | probe
  /-- The full `axios.get` download into memory (line 769). -/
  | download
  /-- The `PUT /api/storage` transfer (line 786). -/
  | transfer
  /-- One `GetFileStatus` poll (line 812). -/
  | poll
  /-- A `setTimeout` delay of the given milliseconds (line 835). -/
  | settle (ms : Nat)
deriving DecidableEq, Repr

inductive UploadError where
  | fileURLInvalid
  | fileExceedsSize
  | fileUploadFailed
  | fileUploadTimeout
deriving DecidableEq, Repr

structure UploadEnv where
  /-- `util.isBASE64Data(fileUrl)`: the source is an inline-encoded payload. -/
  isB64 : Bool
  probeStatus : Nat
  probeContentLength : Option Nat
  fileId : String
  polls : List PollResult
  startTime : Nat
deriving Repr

/-- `checkFileUrl` (lines 720-744): skip everything for an inline payload;
otherwise probe, fail `FileURLInvalid` on status ≥ 400, then fail
`FileExceedsSize` when a declared content length exceeds `FILE_MAX_SIZE`. -/
def checkFileUrl (e : UploadEnv) : Except UploadError Unit × List UploadStep :=
  if e.isB64 then (.ok (), [])
  else if 400 ≤ e.probeStatus then (.error .fileURLInvalid, [.probe])
  else
    match e.probeContentLength with
    | some n =>
        if FILE_MAX_SIZE < n then (.error .fileExceedsSize, [.probe])
        else (.ok (), [.probe])
    | none => (.ok (), [.probe])

/-- The `while (needFurtherCall)` loop body (lines 810-834): after each poll,
first the terminal-failure statuses are checked, then the 60-second ceiling,
then the loop condition is re-evaluated.  `none` means the modelled poll trace
ran out while the loop still wanted another call. -/
def pollLoop (start : Nat) : List PollResult →
    Option (Except UploadError Unit) × List UploadStep
  | [] => (none, [])
  | p :: rest =>
      if p.fileStatus ∈ failStatuses then (some (.error .fileUploadFailed), [.poll])
      else if 60 < p.time - start then (some (.error .fileUploadTimeout), [.poll])
      else if p.needFurtherCall then
        let r := pollLoop start rest
        (r.1, .poll :: r.2)
      else (some (.ok ()), [.poll])

/-- `uploadFile` (lines 752-845) as outcome plus step trace: validate, then
materialize bytes (decode inline / download), transfer, poll to completion,
and sleep 5000 ms before returning the attachment id. -/
def uploadFile (e : UploadEnv) : Option (Except UploadError String) × List UploadStep :=
  let c := checkFileUrl e
  match c.1 with
  | .error err => (some (.error err), c.2)
  | .ok _ =>
      let steps1 := c.2 ++ (if e.isB64 then [] else [UploadStep.download]) ++
        [UploadStep.transfer]
      let pl := pollLoop e.startTime e.polls
      match pl.1 with
      | none => (none, steps1 ++ pl.2)
      | some (.error err) => (some (.error err), steps1 ++ pl.2)
      | some (.ok _) => (some (.ok e.fileId), steps1 ++ pl.2 ++ [.settle 5000])

/-- A poll at which the loop stops: terminal-failure status, elapsed time over
the 60 s ceiling, or the provider's no-further-call signal. -/
def pollDeciding (start : Nat) (p : PollResult) : Bool :=
  decide (p.fileStatus ∈ failStatuses) || decide (60 < p.time - start) ||
    !p.needFurtherCall

/-- What the loop does at its first deciding poll. -/
def pollVerdict (start : Nat) (p : PollResult) : Except UploadError Unit :=
  if p.fileStatus ∈ failStatuses then .error .fileUploadFailed
  else if 60 < p.time - start then .error .fileUploadTimeout
  else .ok ()

theorem pollLoop_find (start : Nat) (ps : List PollResult) :
    (pollLoop start ps).1 =
      (ps.find? (pollDeciding start)).map (pollVerdict start) := by
  induction ps with
  | nil => rfl
  | cons p rest ih =>
      by_cases h1 : p.fileStatus ∈ failStatuses
      · simp [pollLoop, pollDeciding, pollVerdict, List.find?_cons, h1]
      · by_cases h2 : 60 < p.time - start
        · simp [pollLoop, pollDeciding, pollVerdict, List.find?_cons, h1, h2]
        · by_cases h3 : p.needFurtherCall
          · simp only [pollLoop, if_neg h1, if_neg h2, h3, if_true]
            rw [List.find?_cons]
            have hd : pollDeciding start p = false := by
              simp [pollDeciding, h1, h2, h3]
            rw [hd]
            exact ih
          · have h3' : p.needFurtherCall = false := by simpa using h3
            simp [pollLoop, pollDeciding, pollVerdict, List.find?_cons, h1, h2, h3']

theorem pollLoop_steps (start : Nat) (ps : List PollResult) :
    ∀ x ∈ (pollLoop start ps).2, x = UploadStep.poll := by
  induction ps with
  | nil => intro x hx; simp [pollLoop] at hx
  | cons p rest ih =>
      intro x hx
      simp only [pollLoop] at hx
      split at hx
      · simpa using hx
      · split at hx
        · simpa using hx
        · split at hx
          · rcases List.mem_cons.mp hx with h | h
            · exact h
            · exact ih x h
          · simpa using hx

theorem uploadFile_steps_shape (e : UploadEnv) :
    (uploadFile e).2 = (checkFileUrl e).2 ∨
    ∃ X, (uploadFile e).2 =
      (checkFileUrl e).2 ++ (if e.isB64 then [] else [UploadStep.download]) ++
        [UploadStep.transfer] ++ (pollLoop e.startTime e.polls).2 ++ X ∧
      (X = [] ∨ X = [UploadStep.settle 5000]) := by
  simp only [uploadFile]
  split
  · left
    rfl
  · split
    · right
      exact ⟨[], by simp [List.append_assoc], Or.inl rfl⟩
    · right
      exact ⟨[], by simp [List.append_assoc], Or.inl rfl⟩
    · right
      exact ⟨[UploadStep.settle 5000], by simp [List.append_assoc], Or.inr rfl⟩

/-- C8: `uploadFile`'s failure modes.  An inline-encoded (base64) source skips
the remote probe entirely; a non-inline probe with status ≥ 400 raises
`FileURLInvalid` and nothing further runs; a declared content length above
100 MiB raises `FileExceedsSize` before any download or transfer step; the
poll loop's outcome is decided by the first poll that carries a
terminal-failure status (`{12,22,59,404}` → `FileUploadFailed`), exceeds the
60-second ceiling without one (→ `FileUploadTimeout`), or signals that no
further call is needed (→ success); and every successful upload ends with the
fixed 5000 ms settle delay before the attachment is returned. -/
theorem C8_upload_failure_modes (e : UploadEnv) :
    (e.isB64 = true → UploadStep.probe ∉ (uploadFile e).2) ∧
    (e.isB64 = false → 400 ≤ e.probeStatus →
      uploadFile e = (some (.error .fileURLInvalid), [.probe])) ∧
    (∀ n, e.isB64 = false → e.probeStatus < 400 → e.probeContentLength = some n →
      FILE_MAX_SIZE < n →
      uploadFile e = (some (.error .fileExceedsSize), [.probe])) ∧
    ((pollLoop e.startTime e.polls).1 =
      (e.polls.find? (pollDeciding e.startTime)).map (pollVerdict e.startTime)) ∧
    ((checkFileUrl e).1 = .ok () →
      (uploadFile e).1 =
        (pollLoop e.startTime e.polls).1.map (fun x => x.map (fun _ => e.fileId))) ∧
    (∀ s, (uploadFile e).1 = some (.ok s) →
      (uploadFile e).2.getLast? = some (.settle 5000)) := by
  refine ⟨?_, ?_, ?_, pollLoop_find e.startTime e.polls, ?_, ?_⟩
  · intro hb64
    have hc2 : (checkFileUrl e).2 = [] := by simp [checkFileUrl, hb64]
    rcases uploadFile_steps_shape e with h | ⟨X, hX, hX2⟩
    · rw [h, hc2]
      simp
    · rw [hX, hc2, hb64]
      intro hmem
      simp only [List.nil_append, List.append_assoc, List.mem_append, List.mem_cons,
        List.mem_singleton, List.not_mem_nil, if_true] at hmem
      rcases hmem with h | h | h
      · exact absurd h (by simp)
      · exact absurd (pollLoop_steps e.startTime e.polls _ h) (by simp)
      · rcases hX2 with rfl | rfl
        · simp at h
        · simp at h
  · intro hb64 hstatus
    have hc : checkFileUrl e = (.error .fileURLInvalid, [.probe]) := by
      simp [checkFileUrl, hb64, hstatus]
    simp [uploadFile, hc]
  · intro n hb64 hstatus hlen hbig
    have hc : checkFileUrl e = (.error .fileExceedsSize, [.probe]) := by
      simp [checkFileUrl, hb64, hlen, hbig]
      omega
    simp [uploadFile, hc]
  · intro hok
    simp only [uploadFile, hok]
    rcases hp : (pollLoop e.startTime e.polls).1 with _ | r
    · simp
    · cases r with
      | error err => simp [Except.map]
      | ok u => simp [Except.map]
  · intro s hs
    simp only [uploadFile] at hs ⊢
    rcases hc : (checkFileUrl e).1 with err | u
    · rw [hc] at hs
      simp at hs
    · rw [hc] at hs
      rcases hp : (pollLoop e.startTime e.polls).1 with _ | r
      · rw [hp] at hs
        simp at hs
      · cases r with
        | error err =>
            rw [hp] at hs
            simp at hs
        | ok u2 =>
            show ((checkFileUrl e).2 ++
                (if e.isB64 then [] else [UploadStep.download]) ++
                [UploadStep.transfer] ++ (pollLoop e.startTime e.polls).2 ++
                [UploadStep.settle 5000]).getLast? = some (UploadStep.settle 5000)
            exact List.getLast?_concat _

/-- C8 witness: a non-inline source whose probe declares 100 MiB + 1 bytes is
rejected with `FileExceedsSize` by the probe alone. -/
theorem C8_upload_failure_modes_witness :
    uploadFile ⟨false, 200, some (100 * 1024 * 1024 + 1), "f", [], 0⟩ =
      (some (.error .fileExceedsSize), [.probe]) :=
  (C8_upload_failure_modes ⟨false, 200, some (100 * 1024 * 1024 + 1), "f", [], 0⟩).2.2.1
    (100 * 1024 * 1024 + 1) rfl (by decide) rfl (by decide)

/-! ## Reference-file extraction (C10)

`extractRefFileUrls` (chat.ts lines 355-377) and its use in `createCompletion`
(lines 209-215).  Message content is the closed union the API accepts: a plain
string or a list of parts; a part is a raw string or an object carrying a
`type` tag, an optional `text`, the nested `file_url.url` / `image_url.url`
(present only when the field is an object with a string `url`), and an
optional top-level `url` field (the field `messagesPrepare`'s base64 filter
reads; absent in the documented shapes). -/

structure Part where
  type : String
  text : Option String := none
  file_url : Option String := none
  image_url : Option String := none
  url : Option String := none
deriving DecidableEq, Repr

inductive ContentPart where
  | str (s : String)
  | obj (p : Part)
deriving DecidableEq, Repr

inductive MsgContent where
  | str (s : String)
  | parts (l : List ContentPart)
deriving DecidableEq, Repr

structure ChatMessage where
  role : Option String
  content : MsgContent
deriving DecidableEq, Repr

/-- The per-part collection the `forEach` at lines 364-373 performs on the last
message: `file` parts contribute `file_url.url`, `image_url` parts contribute
`image_url.url`; everything else is skipped. -/
def extractUrlsFromMessage (m : ChatMessage) : List String :=
  match m.content with
  | .str _ => []
  | .parts l =>
      l.foldl (fun acc v =>
        match v with
        | .str _ => acc
        | .obj p =>
            if p.type = "file" then
              match p.file_url with
              | some u => acc ++ [u]
              | none => acc
            else if p.type = "image_url" then
              match p.image_url with
              | some u => acc ++ [u]
              | none => acc
            else acc) []

/-- `extractRefFileUrls(messages)`: empty list for no messages, otherwise only
`messages[messages.length - 1]` is scanned. -/
def extractRefFileUrls (messages : List ChatMessage) : List String :=
  match messages.getLast? with
  | none => []
  | some m => extractUrlsFromMessage m

/-- C10: the uploader's inputs come exclusively from the final message — for
every history and final message, `extractRefFileUrls` returns exactly the
file/image URLs of the final message, so file or image parts in earlier turns
are never passed to `uploadFile`, and any two requests sharing the same final
message upload the same URLs. -/
theorem C10_only_last_message_uploaded :
    (∀ (ms : List ChatMessage) (m : ChatMessage),
      extractRefFileUrls (ms ++ [m]) = extractUrlsFromMessage m) ∧
    extractRefFileUrls [] = [] ∧
    (∀ (ms₁ ms₂ : List ChatMessage) (m : ChatMessage),
      extractRefFileUrls (ms₁ ++ [m]) = extractRefFileUrls (ms₂ ++ [m])) := by
  have hlast : ∀ (ms : List ChatMessage) (m : ChatMessage),
      extractRefFileUrls (ms ++ [m]) = extractUrlsFromMessage m := by
    intro ms m
    unfold extractRefFileUrls
    rw [List.getLast?_concat]
  exact ⟨hlast, rfl, fun ms₁ ms₂ m => (hlast ms₁ m).trans (hlast ms₂ m).symm⟩

/-! ## Message preparation and wire framing (C5)

`messagesPrepare` (chat.ts lines 389-445) and `wrapData` (lines 694-706).
The JSON payload `JSON.stringify({chatId, messageInfo:{text, attachments?}})`
is reproduced with explicit key order and ECMA-262 string escaping; UTF-8
bytes come from `String.toUTF8`. -/

/-- Modelled from the spec: `util.isBASE64Data` lives in `src/lib/util.ts`,
which is not among the provided sources.  The spec calls these
"inline-encoded payloads" (base64 data URIs), so the check is a `data:` URI
test on a string; a missing value (JS `undefined`, here `none`) is not base64
data. -/
def isBASE64Data : Option String → Bool
  | none => false
  | some s => "data:".data.isPrefixOf s.data

/-- The base64-stripping filter predicate of `messagesPrepare` (lines
393-400): a part is dropped only when it is an object tagged `file` or
`image_url` whose **top-level** `url` field (`v['url']`, not the nested
`file_url.url` / `image_url.url`) is base64 data. -/
def keepPart : ContentPart → Bool
  | .str _ => true
  | .obj p =>
      if p.type = "file" || p.type = "image_url" then !isBASE64Data p.url
      else true

def stripMessage (m : ChatMessage) : ChatMessage :=
  match m.content with
  | .parts l => { m with content := .parts (l.filter keepPart) }
  | .str _ => m

def partIsFileOrImage : ContentPart → Bool
  | .obj p => p.type = "file" || p.type = "image_url"
  | .str _ => false

/-- The `hasFileOrImage` check at lines 407-408 on the (already filtered)
latest message. -/
def hasFileOrImage (m : ChatMessage) : Bool :=
  match m.content with
  | .parts l => l.any partIsFileOrImage
  | .str _ => false

def fileAttentionMsg : ChatMessage :=
  ⟨some "system", .str "以上为历史消息，关注以下用户发送的文件和消息"⟩

def textAttentionMsg : ChatMessage :=
  ⟨some "system", .str "以上为历史消息，关注以下用户消息"⟩

/-- `message.role || "user"`. -/
def roleOrUser : Option String → String
  | none => "user"
  | some r => if r = "" then "user" else r

/-- One content part inside the reduce at lines 427-430: only `text` parts
contribute, always with the hardcoded `user:` role; a missing `text` field
stringifies as JS `undefined`. -/
def serializePart (c : String) (v : ContentPart) : String :=
  match v with
  | .obj p =>
      if p.type = "text" then
        c ++ "user:" ++ (match p.text with | some t => t | none => "undefined") ++ "\n"
      else c
  | .str _ => c

/-- One message inside the reduce at lines 425-433. -/
def serializeMessage (acc : String) (m : ChatMessage) : String :=
  match m.content with
  | .parts l => l.foldl serializePart acc
  | .str s => acc ++ roleOrUser m.role ++ ":" ++ s ++ "\n"

/-- `validMessages.splice(validMessages.length - 1, 0, msg)`. -/
def spliceBeforeLast (ms : List ChatMessage) (m : ChatMessage) : List ChatMessage :=
  ms.take (ms.length - 1) ++ m :: ms.drop (ms.length - 1)

/-- The merged conversation text of `messagesPrepare` (lines 391-433): strip,
choose and splice the synthetic system instruction, reduce, append the
trailing `assistant:`.  (On an empty message list the real code throws a
`TypeError` reading `latestMessage.content`; the claims only concern nonempty
lists, where this model is exact.) -/
def mergedText (ms : List ChatMessage) : String :=
  let valid := ms.map stripMessage
  let fileFlag :=
    match valid.getLast? with
    | some m => hasFileOrImage m
    | none => false
  let spliced := spliceBeforeLast valid
    (if fileFlag then fileAttentionMsg else textAttentionMsg)
  spliced.foldl serializeMessage "" ++ "assistant:"

def hexDigit (n : Nat) : Char :=
  if n < 10 then Char.ofNat (48 + n) else Char.ofNat (87 + n)

/-- ECMA-262 `JSON.stringify` escaping of one character. -/
def jsonEscapeChar (c : Char) : String :=
  if c = '"' then "\\\""
  else if c = '\\' then "\\\\"
  else if c = '\n' then "\\n"
  else if c = '\r' then "\\r"
  else if c = '\t' then "\\t"
  else if c.toNat = 8 then "\\b"
  else if c.toNat = 12 then "\\f"
  else if c.toNat < 32 then
    "\\u00" ++ String.mk [hexDigit (c.toNat / 16), hexDigit (c.toNat % 16)]
  else String.mk [c]

def jsonEscape (s : String) : String :=
  s.data.foldl (fun acc c => acc ++ jsonEscapeChar c) ""

def jsonStr (s : String) : String := "\"" ++ jsonEscape s ++ "\""

/-- The attachment object `uploadFile` returns (lines 837-844) and
`messagesPrepare` serializes into `messageInfo.attachments`. -/
structure Attachment where
  attachmentType : String
  attachmentId : String
  name : String
  width : String
  height : String
  size : String
deriving DecidableEq, Repr

def attachmentJson (a : Attachment) : String :=
  "\x7b\"attachmentType\":" ++ jsonStr a.attachmentType ++
    ",\"attachmentId\":" ++ jsonStr a.attachmentId ++
    ",\"name\":" ++ jsonStr a.name ++
    ",\"width\":" ++ jsonStr a.width ++
    ",\"height\":" ++ jsonStr a.height ++
    ",\"size\":" ++ jsonStr a.size ++ "\x7d"

/-- `JSON.stringify({chatId, messageInfo:{text, attachments: refs.length > 0 ?
refs : undefined}})` (lines 436-442): insertion key order; an `undefined`
property is omitted. -/
def messagePayload (convId text : String) (refs : List Attachment) : String :=
  "\x7b\"chatId\":" ++ jsonStr convId ++ ",\"messageInfo\":\x7b\"text\":" ++
    jsonStr text ++
    (if 0 < refs.length then
      ",\"attachments\":[" ++ String.intercalate "," (refs.map attachmentJson) ++ "]"
     else "") ++ "\x7d\x7d"

/-- UTF-8 bytes of a string (`Buffer.from(json)`). -/
def utf8Bytes (s : String) : List Nat :=
  s.toUTF8.toList.map (fun b => b.toNat)

/-- `wrapData` (lines 694-706): a 5-byte header — flag byte `0x00`, then
`setUint32(1, data.length)` big-endian (a `ToUint32` conversion, hence the
`% 2^32`) — followed by the payload bytes. -/
def wrapData (json : String) : List Nat :=
  let data := utf8Bytes json
  0 :: be32 (data.length % 2 ^ 32) ++ data

/-- The full request body `messagesPrepare` returns. -/
def messagesPrepare (convId : String) (ms : List ChatMessage)
    (refs : List Attachment) : List Nat :=
  wrapData (messagePayload convId (mergedText ms) refs)

/-! The stripping step as the claim words it, for comparison: an
inline-encoded (base64) file/image content part is removed, reading the
part's documented nested `file_url.url` / `image_url.url` field. -/

def claimKeepPart : ContentPart → Bool
  | .str _ => true
  | .obj p =>
      if p.type = "file" || p.type = "image_url" then
        !isBASE64Data (if p.type = "file" then p.file_url else p.image_url)
      else true

def claimStripMessage (m : ChatMessage) : ChatMessage :=
  match m.content with
  | .parts l => { m with content := .parts (l.filter claimKeepPart) }
  | .str _ => m

/-- `mergedText` with the claim's stripping step in place of the code's. -/
def claimMergedText (ms : List ChatMessage) : String :=
  let valid := ms.map claimStripMessage
  let fileFlag :=
    match valid.getLast? with
    | some m => hasFileOrImage m
    | none => false
  let spliced := spliceBeforeLast valid
    (if fileFlag then fileAttentionMsg else textAttentionMsg)
  spliced.foldl serializeMessage "" ++ "assistant:"

/-- A final message carrying one image part whose nested url is an
inline-encoded payload (the documented shape), with no top-level `url`. -/
def b64ImagePart : ContentPart :=
  .obj { type := "image_url", image_url := some "data:image/png;base64,AA" }

def cexMessages : List ChatMessage :=
  [⟨some "user", .str "hi"⟩, ⟨some "user", .parts [b64ImagePart]⟩]

/-- C5 counterexample: the code does not strip an inline-encoded (base64)
image part in the documented nested shape — its filter reads a top-level
`url` field these parts do not have — so the file-attention system
instruction is chosen where the claim's stripping would choose the
message-attention one, and the prepared text differs from the claim's. -/
theorem C5_strip_counterexample :
    mergedText cexMessages ≠ claimMergedText cexMessages ∧
    mergedText cexMessages =
      "user:hi\n" ++ "system:以上为历史消息，关注以下用户发送的文件和消息\n" ++
        "assistant:" ∧
    claimMergedText cexMessages =
      "user:hi\n" ++ "system:以上为历史消息，关注以下用户消息\n" ++ "assistant:" := by
  decide

theorem serializePart_acc (c : String) (v : ContentPart) :
    serializePart c v = c ++ serializePart "" v := by
  cases v with
  | str s => simp [serializePart]
  | obj p =>
      simp only [serializePart]
      split
      · simp [String.append_assoc]
      · simp

theorem foldl_serializePart_acc (l : List ContentPart) (c : String) :
    l.foldl serializePart c = c ++ l.foldl serializePart "" := by
  induction l generalizing c with
  | nil => simp
  | cons v vs ih =>
      simp only [List.foldl_cons]
      rw [ih (serializePart c v), ih (serializePart "" v), serializePart_acc c v,
        String.append_assoc]

theorem serializeMessage_acc (acc : String) (m : ChatMessage) :
    serializeMessage acc m = acc ++ serializeMessage "" m := by
  cases hm : m.content with
  | str s =>
      simp only [serializeMessage, hm]
      simp [String.append_assoc]
  | parts l =>
      simp only [serializeMessage, hm]
      exact foldl_serializePart_acc l acc

theorem spliceBeforeLast_concat (xs : List ChatMessage) (y m : ChatMessage) :
    spliceBeforeLast (xs ++ [y]) m = xs ++ m :: [y] := by
  unfold spliceBeforeLast
  have hlen : (xs ++ [y]).length - 1 = xs.length := by simp
  rw [hlen, List.take_left, List.drop_left]

theorem mergedText_concat (init : List ChatMessage) (last : ChatMessage) :
    mergedText (init ++ [last]) =
      (init.map stripMessage).foldl serializeMessage "" ++
        serializeMessage "" (if hasFileOrImage (stripMessage last)
          then fileAttentionMsg else textAttentionMsg) ++
        serializeMessage "" (stripMessage last) ++ "assistant:" := by
  simp only [mergedText]
  rw [List.map_append]
  simp only [List.map_cons, List.map_nil]
  simp only [List.getLast?_concat]
  rw [spliceBeforeLast_concat, List.foldl_append]
  simp only [List.foldl_cons, List.foldl_nil]
  show serializeMessage (serializeMessage
      ((init.map stripMessage).foldl serializeMessage "")
      (if hasFileOrImage (stripMessage last) then fileAttentionMsg
       else textAttentionMsg)) (stripMessage last) ++ "assistant:" = _
  rw [serializeMessage_acc ((init.map stripMessage).foldl serializeMessage "")
    (if hasFileOrImage (stripMessage last) then fileAttentionMsg
     else textAttentionMsg)]
  rw [serializeMessage_acc ((init.map stripMessage).foldl serializeMessage "" ++
    serializeMessage "" (if hasFileOrImage (stripMessage last) then fileAttentionMsg
      else textAttentionMsg)) (stripMessage last)]

theorem readUint32BE_flag_be32 (flag m : Nat) (p : List Nat) (h : m < 2 ^ 32) :
    readUint32BE (flag :: be32 m ++ p) 1 = m := by
  simp only [be32, List.cons_append, List.nil_append, readUint32BE,
    List.getD_cons_succ, List.getD_cons_zero]
  exact be32_readback m h

/-- C5 (amended): plain-string turns serialize as `"<role|user>:<content>\n"`
with a missing role defaulting to `user`; array-content turns contribute one
`"user:<text>\n"` line per text part; the base64-stripping filter reads a
top-level `url` field absent from the documented file/image part shapes, so
such parts are always retained (and the file-attention system-instruction
variant is chosen whenever the final turn carries any file/image part);
exactly one synthetic system instruction is spliced immediately before the
final turn; and the assembled text is wrapped into a single frame whose byte
0 is `0x00`, whose bytes 1-4 hold the big-endian UTF-8 byte length of the
JSON payload, followed by exactly that payload. -/
theorem C5_message_prepare_and_framing (convId : String)
    (init : List ChatMessage) (last : ChatMessage) (refs : List Attachment)
    (role : Option String) (s acc json t : String) (txt fu iu : Option String) :
    serializeMessage acc ⟨role, .str s⟩ =
      acc ++ roleOrUser role ++ ":" ++ s ++ "\n" ∧
    roleOrUser none = "user" ∧
    keepPart (.obj ⟨t, txt, fu, iu, none⟩) = true ∧
    mergedText (init ++ [last]) =
      (init.map stripMessage).foldl serializeMessage "" ++
        serializeMessage "" (if hasFileOrImage (stripMessage last)
          then fileAttentionMsg else textAttentionMsg) ++
        serializeMessage "" (stripMessage last) ++ "assistant:" ∧
    messagesPrepare convId (init ++ [last]) refs =
      wrapData (messagePayload convId (mergedText (init ++ [last])) refs) ∧
    (wrapData json).take 1 = [0] ∧
    readUint32BE (wrapData json) 1 = (utf8Bytes json).length % 2 ^ 32 ∧
    (wrapData json).drop 5 = utf8Bytes json ∧
    (wrapData json).length = (utf8Bytes json).length + 5 := by
  refine ⟨rfl, rfl, ?_, mergedText_concat init last, rfl, rfl, ?_, rfl, ?_⟩
  · simp only [keepPart]
    split
    · rfl
    · rfl
  · show readUint32BE
        (0 :: be32 ((utf8Bytes json).length % 2 ^ 32) ++ utf8Bytes json) 1 = _
    exact readUint32BE_flag_be32 0 _ _ (Nat.mod_lt _ (by norm_num))
  · simp only [wrapData, be32, List.cons_append, List.nil_append]
    simp [List.length_append]

end StepFreeApi
